import Mathlib

/-!
Verification of the live event cockpit (`SimulationPage.jsx` and
`DecisionModal.jsx`) of the Projexa SOC simulation platform.

The cockpit is shallowly embedded: the derived statistics are pure Lean
functions over the list of fetched events, and the stateful React component
is a step function on an explicit `Cockpit` record.  Asynchronous calls
(poll fetch, analyze, submit) are split into a synchronous request part and
a resolution action carrying an oracle for the external service's answer.
-/

/-- One security event as delivered by the event source.  Only the fields the
cockpit's logic reads are kept; `threat_label = none` stands for a JS
`null`/`undefined` label (an absent optional field). -/
structure Event where
  id : Nat
  severity : String
  is_anomaly : Bool
  threat_label : Option String
deriving DecidableEq, Repr

/-- The automated triage output attached to the selected event. -/
structure AnalysisResult where
  threat_label : String
  is_anomaly : Bool
deriving DecidableEq, Repr

/-- The payload of one `/submit-decision` call (the fields the claims are
about). -/
structure Decision where
  analyst_label : String
  correct_label : String
  time_taken_sec : Nat
deriving DecidableEq, Repr

/-- JavaScript `x || d` on an optional string: the default is taken both for
an absent value and for the falsy empty string. -/
def jsOr (x : Option String) (d : String) : String :=
  match x with
  | none => d
  | some s => if s = "" then d else s

/- ── Stats aggregator (pure functions of the Event Store) ─────────────── -/

/-- `stats.total` of `SimulationPage.jsx`. -/
def stats_total (logs : List Event) : Nat := logs.length

/-- `stats.anomalies`: `logs.filter(l => l.is_anomaly).length`. -/
def stats_anomalies (logs : List Event) : Nat :=
  (logs.filter (fun l => l.is_anomaly)).length

/-- `stats.critical`: `logs.filter(l => l.severity === 'critical').length`. -/
def stats_critical (logs : List Event) : Nat :=
  (logs.filter (fun l => l.severity = "critical")).length

/-- `stats.high`: `logs.filter(l => l.severity === 'high').length`. -/
def stats_high (logs : List Event) : Nat :=
  (logs.filter (fun l => l.severity = "high")).length

/-- `riskScore = Math.min(100, Math.round(critical*10 + high*5 + anomalies*2))`.
All inputs are naturals, so `Math.round` is the identity. -/
def riskScore (logs : List Event) : Nat :=
  min 100 (stats_critical logs * 10 + stats_high logs * 5 + stats_anomalies logs * 2)

/-- The spec-side risk formula `clamp(0, 100, round(c*10 + h*5 + a*2))` as a
function of the three counts alone. -/
def riskFromCounts (critical high anomalies : Nat) : Nat :=
  max 0 (min 100 (critical * 10 + high * 5 + anomalies * 2))

/- ── Threat distribution ──────────────────────────────────────────────── -/

/-- One step of the JS `reduce`: `acc[k] = (acc[k] || 0) + 1` on an object
whose string keys stay in insertion order (modelled as an association list;
a new key is appended at the end). -/
def bump : List (String × Nat) → String → List (String × Nat)
  | [], k => [(k, 1)]
  | (k', n) :: rest, k =>
      if k' = k then (k', n + 1) :: rest else (k', n) :: bump rest k

/-- The grouping `reduce` of `threatDist`: events whose `threat_label` is
truthy and not `'benign'` are group-counted by label. -/
def threatCounts (logs : List Event) : List (String × Nat) :=
  logs.foldl (fun acc l =>
    match l.threat_label with
    | some t => if t ≠ "" ∧ t ≠ "benign" then bump acc t else acc
    | none => acc) []

/-- The labels that the `reduce` of `threatDist` counts, in event order. -/
def labelsOf (logs : List Event) : List String :=
  logs.filterMap (fun l =>
    match l.threat_label with
    | some t => if t ≠ "" ∧ t ≠ "benign" then some t else none
    | none => none)

/-- Deduplication keeping the first occurrence of each label. -/
def firstSeen : List String → List String
  | [] => []
  | k :: ks => k :: (firstSeen ks).filter (fun k' => k' ≠ k)

/-- `name.replace(/_/g, ' ')`: every underscore becomes a space. -/
def renameLabel (s : String) : String :=
  String.mk (s.data.map (fun c => if c = '_' then ' ' else c))

/-- The `.map(([name, count]) => ...)` step: underscores in the label are
replaced by spaces for display. -/
def renameEntry (p : String × Nat) : String × Nat :=
  (renameLabel p.1, p.2)

/-- Stable insertion of an entry into a descending-by-count list, matching
the stable JS `sort((a, b) => b.count - a.count)`: the inserted (earlier)
element goes before later elements of equal count. -/
def insertDesc (x : String × Nat) : List (String × Nat) → List (String × Nat)
  | [] => [x]
  | y :: ys => if x.2 < y.2 then y :: insertDesc x ys else x :: y :: ys

/-- Stable descending sort by count. -/
def sortDesc (l : List (String × Nat)) : List (String × Nat) :=
  l.foldr insertDesc []

/-- `threatDist` of `SimulationPage.jsx`: group-count, rename, sort
descending by count (stable), truncate to 6 entries.  The `color` field is
presentation only and is dropped. -/
def threatDist (logs : List Event) : List (String × Nat) :=
  (sortDesc ((threatCounts logs).map renameEntry)).take 6

/- ── Accuracy display ─────────────────────────────────────────────────── -/

/-- `accuracy = decisionsCount > 0 ? ((correct/made)*100).toFixed(0) : '—'`.
`none` is the dash placeholder; `toFixed(0)` rounds to the nearest integer
with halves away from zero, i.e. `⌊100*c/m + 1/2⌋ = (200*c + m) / (2*m)`
in natural division (the float computation is exact on these rationals up
to astronomically large counts). -/
def accuracy (made correct : Nat) : Option Nat :=
  if made > 0 then some ((200 * correct + made) / (2 * made)) else none

/- ── Decision modal defaults ──────────────────────────────────────────── -/

/-- `useState(log?.threat_label || 'brute_force')`: the initial value of the
classification dropdown in `DecisionModal.jsx`. -/
def initLabel (log : Event) : String := jsOr log.threat_label "brute_force"

/-- Modelled from the spec: the external scoring service behind
`/submit-decision` is absent from the sources (only its caller
`submitDecision` is present).  Per the spec it answers
`{correct}` where `correct` holds iff the submitted label equals the
event's true threat label under case-sensitive exact match. -/
def serverCorrect (analyst_label correct_label : String) : Bool :=
  analyst_label == correct_label

/- ── The cockpit state machine ────────────────────────────────────────── -/

/-- The mutable state of `SimulationPage` (React `useState` hooks), the
`DecisionModal`'s local timer, the in-flight analyze calls, and ghost
observables used only to state properties (wall-clock seconds, time of the
last selection, number of fetches issued, toast notices shown, decisions
sent to the scoring service). -/
structure Cockpit where
  logs : List Event
  selectedLog : Option Event
  analysis : Option AnalysisResult
  analysing : Bool
  showModal : Bool
  decisionsCount : Nat
  correctCount : Nat
  paused : Bool
  elapsed : Nat
  /-- the `log` arguments of analyze calls currently in flight, oldest first -/
  pending : List Event
  /-- `DecisionModal`'s `elapsed` state; `none` while the modal is unmounted -/
  modalElapsed : Option Nat
  -- ghost observables
  now : Nat
  selectTime : Nat
  fetches : Nat
  toasts : List String
  sent : List Decision
deriving DecidableEq, Repr

/-- The initial cockpit state (all hooks at their `useState` initials). -/
def init : Cockpit :=
  { logs := [], selectedLog := none, analysis := none, analysing := false,
    showModal := false, decisionsCount := 0, correctCount := 0, paused := false,
    elapsed := 0, pending := [], modalElapsed := none,
    now := 0, selectTime := 0, fetches := 0, toasts := [], sent := [] }

/-- React render bookkeeping for the modal's mount state:
`{showModal && selectedLog && <DecisionModal .../>}` mounts the modal (its
`elapsed` hook initialised to 0) when the condition turns true, keeps its
state while it stays true, and destroys it when it turns false. -/
def syncModal (s : Cockpit) : Cockpit :=
  { s with modalElapsed :=
      if s.showModal && s.selectedLog.isSome then some (s.modalElapsed.getD 0)
      else none }

/-- The discrete actions the cockpit reacts to.  Resolutions of asynchronous
calls carry an oracle for the external service's answer; `none` is a failed
call (a rejected promise). -/
inductive Act where
  /-- the operator clicks an event: `analyzeLog(log)` runs its synchronous
  prefix and leaves the analyze call in flight -/
  | select (log : Event)
  /-- the oldest in-flight analyze call resolves successfully with `res` -/
  | resolveAnalyzeOk (res : AnalysisResult)
  /-- the oldest in-flight analyze call rejects -/
  | resolveAnalyzeErr
  /-- the sidebar's OPEN DECISION FORM button (rendered only when
  `!analysing && selectedLog && analysis && !showModal`) -/
  | openForm
  /-- the modal's close button: `onClose` sets `showModal` to false -/
  | closeModal
  /-- the modal's submit button runs `submitDecision` with the given label
  and notes; `ok` tells whether the `/submit-decision` call succeeds -/
  | submit (label : String) (notes : String) (ok : Bool)
  /-- one tick of the 3.5s poll interval; `result` is the fetch's answer -/
  | tickPoll (result : Option (List Event))
  /-- the PAUSE/RESUME button; the `fetchLogs` effect re-runs and issues an
  immediate (guarded) fetch whose answer is `immediate` -/
  | togglePause (immediate : Option (List Event))
  /-- one second passes: the session clock and the modal timer tick -/
  | tickSecond
deriving Repr

/-- `fetchLogs` of `SimulationPage.jsx`: `if (paused) return`, then
`setLogs(data)` on success and an empty `catch {}` on failure.  The ghost
field `fetches` counts issued requests. -/
def applyFetch (s : Cockpit) (result : Option (List Event)) : Cockpit :=
  if s.paused then s
  else
    let s := { s with fetches := s.fetches + 1 }
    match result with
    | some data => { s with logs := data }
    | none => s

/-- One transition of the cockpit.  Every branch ends with the React render
pass `syncModal` that maintains the modal's mount state. -/
def step (s : Cockpit) (a : Act) : Cockpit :=
  syncModal <|
    match a with
    | .select log =>
        -- analyzeLog(log): setSelectedLog(log); setAnalysis(null);
        -- setAnalysing(true); api.post('/analyze-threat', ...) in flight
        { s with selectedLog := some log, analysis := none, analysing := true,
                 pending := s.pending ++ [log], selectTime := s.now }
    | .resolveAnalyzeOk res =>
        -- setAnalysis(data); setShowModal(true); finally setAnalysing(false)
        match s.pending with
        | [] => s
        | _ :: rest =>
            { s with analysis := some res, showModal := true,
                     analysing := false, pending := rest }
    | .resolveAnalyzeErr =>
        -- catch { toast.error('Analysis failed') } finally setAnalysing(false)
        match s.pending with
        | [] => s
        | _ :: rest =>
            { s with analysing := false, pending := rest,
                     toasts := s.toasts ++ ["Analysis failed"] }
    | .openForm =>
        if !s.analysing && s.selectedLog.isSome && s.analysis.isSome && !s.showModal
        then { s with showModal := true } else s
    | .closeModal => { s with showModal := false }
    | .submit label _notes ok =>
        -- submitDecision: if (!selectedLog) return; the modal exists (and
        -- supplies timeTaken from its own timer) only while mounted
        match s.selectedLog, s.modalElapsed with
        | some log, some t =>
            let d : Decision :=
              { analyst_label := label,
                correct_label := jsOr log.threat_label "brute_force",
                time_taken_sec := t }
            let s := { s with sent := s.sent ++ [d] }
            if ok then
              let correct := serverCorrect d.analyst_label d.correct_label
              { s with
                decisionsCount := s.decisionsCount + 1,
                correctCount := s.correctCount + (if correct then 1 else 0),
                toasts := s.toasts ++
                  [if correct then "Correct classification!" else "Incorrect"],
                showModal := false, selectedLog := none }
            else
              { s with toasts := s.toasts ++ ["Failed to submit decision"] }
        | _, _ => s
    | .tickPoll result => applyFetch s result
    | .togglePause immediate =>
        -- setPaused(p => !p); the [fetchLogs] effect re-runs: fetchLogs()
        applyFetch { s with paused := !s.paused } immediate
    | .tickSecond =>
        { s with now := s.now + 1, elapsed := s.elapsed + 1,
                 modalElapsed := s.modalElapsed.map (· + 1) }

/-- Run a list of actions from a state. -/
def runTrace (s : Cockpit) (as : List Act) : Cockpit :=
  as.foldl step s

/- ── Concrete inputs used by counterexamples and witnesses ────────────── -/

/-- A concrete event with a recorded true threat label. -/
def eventX : Event := ⟨1, "critical", true, some "ransomware"⟩

/-- A second concrete event, true label `phishing`. -/
def eventY : Event := ⟨2, "high", false, some "phishing"⟩

/-- The analysis the external service returns for `eventX`. -/
def analysisX : AnalysisResult := ⟨"ransomware", true⟩

/-- Trace for the timer discrepancy: select `eventX`, five seconds pass while
the analysis is in flight, the analysis resolves (the decision form opens),
two more seconds pass, then the analyst submits. -/
def timerTrace : List Act :=
  [.select eventX, .tickSecond, .tickSecond, .tickSecond, .tickSecond, .tickSecond,
   .resolveAnalyzeOk analysisX, .tickSecond, .tickSecond, .submit "phishing" "" true]

/-- A cockpit state whose decision form has just opened on `eventY`. -/
def c3state : Cockpit :=
  { init with showModal := true, selectedLog := some eventY, modalElapsed := some 0 }

/-- A deciding state on `eventY` whose form has been open for three seconds. -/
def c4state : Cockpit :=
  { init with showModal := true, selectedLog := some eventY, modalElapsed := some 3 }

/-- A deciding state on `eventX` (used for the default-label witness). -/
def c10state : Cockpit :=
  { init with showModal := true, selectedLog := some eventX, modalElapsed := some 0 }

/-- A paused cockpit holding one event. -/
def pausedState : Cockpit := { init with paused := true, logs := [eventX] }

/-- A running (unpaused) cockpit holding one event. -/
def runningState : Cockpit := { init with logs := [eventY] }

/-- A small event store for the threat-distribution witness. -/
def distLogs : List Event :=
  [⟨1, "low", false, some "phishing"⟩, ⟨2, "low", false, some "ddos"⟩,
   ⟨3, "low", false, some "ddos"⟩, ⟨4, "low", false, some "benign"⟩]

/-- Per-key accumulated count in an association list (the sum of the values
of the entries carrying key `k`). -/
def valAt (acc : List (String × Nat)) (k : String) : Nat :=
  ((acc.filter (fun p => p.1 = k)).map Prod.snd).sum

/- ── Sanity examples on the pure layer ────────────────────────────────── -/

example : riskScore [⟨1, "critical", true, none⟩, ⟨2, "high", false, none⟩] = 17 := by decide

example :
    threatDist [⟨1, "low", false, some "phishing"⟩, ⟨2, "low", false, some "ddos"⟩,
      ⟨3, "low", false, some "ddos"⟩, ⟨4, "low", false, some "benign"⟩]
      = [("ddos", 2), ("phishing", 1)] := by decide

example : accuracy 3 1 = some 33 := by decide
example : accuracy 0 0 = none := by decide
example : accuracy 8 1 = some 13 := by decide

/- ── Basic lemmas about the step function ─────────────────────────────── -/

@[simp] lemma syncModal_logs (s : Cockpit) : (syncModal s).logs = s.logs := rfl

@[simp] lemma syncModal_selectedLog (s : Cockpit) :
    (syncModal s).selectedLog = s.selectedLog := rfl

@[simp] lemma syncModal_analysis (s : Cockpit) : (syncModal s).analysis = s.analysis := rfl

@[simp] lemma syncModal_analysing (s : Cockpit) : (syncModal s).analysing = s.analysing := rfl

@[simp] lemma syncModal_showModal (s : Cockpit) : (syncModal s).showModal = s.showModal := rfl

@[simp] lemma syncModal_decisionsCount (s : Cockpit) :
    (syncModal s).decisionsCount = s.decisionsCount := rfl

@[simp] lemma syncModal_correctCount (s : Cockpit) :
    (syncModal s).correctCount = s.correctCount := rfl

@[simp] lemma syncModal_paused (s : Cockpit) : (syncModal s).paused = s.paused := rfl

@[simp] lemma syncModal_elapsed (s : Cockpit) : (syncModal s).elapsed = s.elapsed := rfl

@[simp] lemma syncModal_pending (s : Cockpit) : (syncModal s).pending = s.pending := rfl

@[simp] lemma syncModal_now (s : Cockpit) : (syncModal s).now = s.now := rfl

@[simp] lemma syncModal_selectTime (s : Cockpit) :
    (syncModal s).selectTime = s.selectTime := rfl

@[simp] lemma syncModal_fetches (s : Cockpit) : (syncModal s).fetches = s.fetches := rfl

@[simp] lemma syncModal_toasts (s : Cockpit) : (syncModal s).toasts = s.toasts := rfl

@[simp] lemma syncModal_sent (s : Cockpit) : (syncModal s).sent = s.sent := rfl

lemma syncModal_modalElapsed (s : Cockpit) :
    (syncModal s).modalElapsed =
      if s.showModal && s.selectedLog.isSome then some (s.modalElapsed.getD 0)
      else none := rfl

@[simp] lemma runTrace_nil (s : Cockpit) : runTrace s [] = s := rfl

@[simp] lemma runTrace_cons (s : Cockpit) (a : Act) (as : List Act) :
    runTrace s (a :: as) = runTrace (step s a) as := rfl

lemma runTrace_append (s : Cockpit) (as bs : List Act) :
    runTrace s (as ++ bs) = runTrace (runTrace s as) bs :=
  List.foldl_append step s as bs

/- ── C1: stale analyze resolution is attached to the new selection ────── -/

/-- C1: COUNTER-EVIDENCE (the code contradicts the claimed abandonment).
After `select(eventX)` then `select(eventY)` before eventX's analyze call
resolves, the resolution of eventX's call attaches `analysisX` to the
workflow state — and even opens the decision form — while `eventY` is the
selected event.  `analyzeLog` has no guard comparing the resolving call's
event with the current selection, so the in-flight workflow of the old
event is not abandoned. -/
theorem C1_stale_analysis_attached :
    (runTrace init [.select eventX, .select eventY, .resolveAnalyzeOk analysisX]).selectedLog
        = some eventY
    ∧ (runTrace init [.select eventX, .select eventY, .resolveAnalyzeOk analysisX]).analysis
        = some analysisX
    ∧ (runTrace init [.select eventX, .select eventY, .resolveAnalyzeOk analysisX]).showModal
        = true := by
  decide

/- ── C2: the risk score ───────────────────────────────────────────────── -/

/-- C2: for every Event Store snapshot, `riskScore` equals
`clamp(0, 100, critical*10 + high*5 + anomalies*2)` (the rounding is the
identity on integers), hence is a deterministic function of the three
counts alone; it never exceeds 100 (and, being a natural number, never goes
below 0); and on the two-event store of the scenario it is 17. -/
theorem C2_riskScore_clamped :
    (∀ logs : List Event,
        riskScore logs
          = riskFromCounts (stats_critical logs) (stats_high logs) (stats_anomalies logs))
    ∧ (∀ logs : List Event, riskScore logs ≤ 100)
    ∧ riskScore [⟨1, "critical", true, none⟩, ⟨2, "high", false, none⟩] = 17 := by
  refine ⟨fun logs => ?_, fun logs => ?_, by decide⟩
  · simp [riskScore, riskFromCounts]
  · exact min_le_left _ _

/- ── C3: the decision timer ───────────────────────────────────────────── -/

/-- C3: COUNTEREXAMPLE.  The decision timer is the `DecisionModal`'s local
`elapsed` hook, which starts when the decision form mounts — after the
analyze call resolves — not at `select`.  In the concrete trace
`timerTrace` (select, five seconds of analysis latency, the form opens, two
more seconds, submit) the submitted decision carries `time_taken_sec = 2`,
whereas 7 whole seconds elapsed since the event was selected. -/
theorem C3_timer_counterexample :
    (runTrace init timerTrace).sent.map Decision.time_taken_sec = [2]
    ∧ (runTrace init timerTrace).now - (runTrace init timerTrace).selectTime = 7
    ∧ (runTrace init timerTrace).sent.map Decision.time_taken_sec
        ≠ [(runTrace init timerTrace).now - (runTrace init timerTrace).selectTime] := by
  decide

/-- Auxiliary: ticking the clock `n` times while the decision form is open
leaves the selection, the form and the sent list unchanged and advances the
modal timer by exactly `n`. -/
lemma runTicks (s : Cockpit) (log : Event) (t n : Nat)
    (h1 : s.showModal = true) (h2 : s.selectedLog = some log)
    (h3 : s.modalElapsed = some t) :
    (runTrace s (List.replicate n .tickSecond)).showModal = true
    ∧ (runTrace s (List.replicate n .tickSecond)).selectedLog = some log
    ∧ (runTrace s (List.replicate n .tickSecond)).modalElapsed = some (t + n)
    ∧ (runTrace s (List.replicate n .tickSecond)).sent = s.sent := by
  induction n generalizing s t with
  | zero =>
      rw [List.replicate_zero, runTrace_nil]
      exact ⟨h1, h2, by rw [h3, Nat.add_zero], rfl⟩
  | succ n ih =>
      rw [List.replicate_succ, runTrace_cons]
      have hstep1 : (step s .tickSecond).showModal = true := by
        simp [step, h1]
      have hstep2 : (step s .tickSecond).selectedLog = some log := by
        simp [step, h2]
      have hstep3 : (step s .tickSecond).modalElapsed = some (t + 1) := by
        simp [step, syncModal_modalElapsed, h1, h2, h3]
      have hstep4 : (step s .tickSecond).sent = s.sent := by
        simp [step]
      obtain ⟨m1, m2, m3, m4⟩ := ih (step s .tickSecond) (t + 1) hstep1 hstep2 hstep3
      refine ⟨m1, m2, ?_, m4.trans hstep4⟩
      rw [m3]
      congr 1
      omega

/-- C3 (amended): the per-decision timer is reset to 0 when the decision
form opens (the modal mounts), increases by one on every second tick while
the form stays open, and the elapsed value sent with a submitted Decision
equals the whole seconds since the form opened — not since `select`. -/
theorem C3_timer_measures_form_open (s : Cockpit) (log : Event) (n : Nat) (L : String)
    (h1 : s.showModal = true) (h2 : s.selectedLog = some log)
    (h3 : s.modalElapsed = some 0) :
    (runTrace s (List.replicate n .tickSecond ++ [.submit L "" true])).sent
      = s.sent ++ [{ analyst_label := L,
                     correct_label := jsOr log.threat_label "brute_force",
                     time_taken_sec := n }] := by
  obtain ⟨m1, m2, m3, m4⟩ := runTicks s log 0 n h1 h2 h3
  rw [runTrace_append]
  rw [runTrace_cons, runTrace_nil]
  rw [Nat.zero_add] at m3
  simp [step, m2, m3, m4]

/-- C3 witness: the amended timer theorem at a concrete just-opened form. -/
theorem C3_timer_measures_form_open_witness :
    (runTrace c3state (List.replicate 2 .tickSecond ++ [.submit "ddos" "" true])).sent
      = c3state.sent ++ [{ analyst_label := "ddos",
                           correct_label := jsOr eventY.threat_label "brute_force",
                           time_taken_sec := 2 }] :=
  C3_timer_measures_form_open c3state eventY 2 "ddos" rfl rfl rfl

/- ── C4: successful submit updates the counters ───────────────────────── -/

/-- C4: a successful submit of label `L` while event `log` is selected (the
decision form being open for `t` seconds) increments the decisions-made
counter by exactly one and increments the decisions-correct counter by
exactly one if and only if `L` equals the event's true threat label under
case-sensitive exact match, the true label defaulting to `brute_force` when
absent (`jsOr`).  The server-side comparison is `serverCorrect`, modelled
from the spec. -/
theorem C4_submit_success_counters (s : Cockpit) (log : Event) (t : Nat) (L N : String)
    (h1 : s.selectedLog = some log) (h2 : s.modalElapsed = some t) :
    (step s (.submit L N true)).decisionsCount = s.decisionsCount + 1
    ∧ ((step s (.submit L N true)).correctCount = s.correctCount + 1
        ↔ L = jsOr log.threat_label "brute_force")
    ∧ ((step s (.submit L N true)).correctCount = s.correctCount
        ↔ L ≠ jsOr log.threat_label "brute_force") := by
  by_cases hL : L = jsOr log.threat_label "brute_force" <;>
    simp [step, h1, h2, serverCorrect, hL]

/-- C4 witness: submitting `"phishing"` for `eventY` (true label
`phishing`) in a concrete deciding state increments decisions-made and
decisions-correct by exactly one. -/
theorem C4_submit_success_counters_witness :
    (step c4state (.submit "phishing" "" true)).decisionsCount = c4state.decisionsCount + 1
    ∧ ((step c4state (.submit "phishing" "" true)).correctCount = c4state.correctCount + 1
        ↔ "phishing" = jsOr eventY.threat_label "brute_force")
    ∧ "phishing" = jsOr eventY.threat_label "brute_force" :=
  ⟨(C4_submit_success_counters c4state eventY 3 "phishing" "" rfl rfl).1,
   (C4_submit_success_counters c4state eventY 3 "phishing" "" rfl rfl).2.1,
   by decide⟩

/- ── C6: pause drops ticks, resume fetches ────────────────────────────── -/

/-- C6: while synchronization is paused, a poll tick leaves the Event Store
unchanged and issues no fetch (the ghost fetch counter does not move);
after resuming via the toggle, the next poll tick issues a fetch, and a
successful one replaces the Event Store with the fetched batch. -/
theorem C6_pause_drops_resume_fetches (s : Cockpit) (r rImm : Option (List Event))
    (data : List Event) (hp : s.paused = true) :
    (step s (.tickPoll r)).logs = s.logs
    ∧ (step s (.tickPoll r)).fetches = s.fetches
    ∧ (step (step s (.togglePause rImm)) (.tickPoll (some data))).logs = data
    ∧ (step (step s (.togglePause rImm)) (.tickPoll (some data))).fetches
        = (step s (.togglePause rImm)).fetches + 1 := by
  cases rImm <;> cases r <;> simp [step, applyFetch, hp]

/-- C6 witness: the pause/resume theorem at a concrete paused state. -/
theorem C6_pause_drops_resume_fetches_witness :
    (step pausedState (.tickPoll (some []))).logs = pausedState.logs
    ∧ (step pausedState (.tickPoll (some []))).fetches = pausedState.fetches
    ∧ (step (step pausedState (.togglePause none)) (.tickPoll (some [eventY]))).logs = [eventY]
    ∧ (step (step pausedState (.togglePause none)) (.tickPoll (some [eventY]))).fetches
        = (step pausedState (.togglePause none)).fetches + 1 :=
  C6_pause_drops_resume_fetches pausedState (some []) none [eventY] rfl

/- ── C7: a failed fetch is silent and retried ─────────────────────────── -/

/-- C7: a poll tick whose fetch fails leaves the Event Store unchanged and
raises no user-visible notice (the toast list does not move); the tick did
issue a fetch, synchronization stays unpaused, and the next tick issues a
fetch again — no backoff, no retry exhaustion. -/
theorem C7_failed_fetch_silent_retry (s : Cockpit) (r : Option (List Event))
    (hp : s.paused = false) :
    (step s (.tickPoll none)).logs = s.logs
    ∧ (step s (.tickPoll none)).toasts = s.toasts
    ∧ (step s (.tickPoll none)).fetches = s.fetches + 1
    ∧ (step s (.tickPoll none)).paused = false
    ∧ (step (step s (.tickPoll none)) (.tickPoll r)).fetches
        = (step s (.tickPoll none)).fetches + 1 := by
  cases r <;> simp [step, applyFetch, hp]

/-- C7 witness: the failed-fetch theorem at a concrete running state. -/
theorem C7_failed_fetch_silent_retry_witness :
    (step runningState (.tickPoll none)).logs = runningState.logs
    ∧ (step runningState (.tickPoll none)).toasts = runningState.toasts
    ∧ (step runningState (.tickPoll none)).fetches = runningState.fetches + 1
    ∧ (step runningState (.tickPoll none)).paused = false
    ∧ (step (step runningState (.tickPoll none)) (.tickPoll none)).fetches
        = (step runningState (.tickPoll none)).fetches + 1 :=
  C7_failed_fetch_silent_retry runningState none rfl

/- ── C8: a failed submit preserves the deciding state ─────────────────── -/

/-- C8: when the submit call fails, the decision form stays open on the same
selected event with the same analysis and the same timer value, and neither
the decisions-made nor the decisions-correct counter is mutated, so the
analyst can retry without re-timing. -/
theorem C8_failed_submit_preserves_deciding (s : Cockpit) (log : Event) (t : Nat)
    (L N : String) (h0 : s.showModal = true) (h1 : s.selectedLog = some log)
    (h2 : s.modalElapsed = some t) :
    (step s (.submit L N false)).showModal = true
    ∧ (step s (.submit L N false)).selectedLog = some log
    ∧ (step s (.submit L N false)).analysis = s.analysis
    ∧ (step s (.submit L N false)).modalElapsed = some t
    ∧ (step s (.submit L N false)).decisionsCount = s.decisionsCount
    ∧ (step s (.submit L N false)).correctCount = s.correctCount := by
  simp [step, syncModal_modalElapsed, h0, h1, h2]

/-- C8 witness: the failed-submit theorem at a concrete deciding state. -/
theorem C8_failed_submit_preserves_deciding_witness :
    (step c4state (.submit "ddos" "note" false)).showModal = true
    ∧ (step c4state (.submit "ddos" "note" false)).selectedLog = some eventY
    ∧ (step c4state (.submit "ddos" "note" false)).analysis = c4state.analysis
    ∧ (step c4state (.submit "ddos" "note" false)).modalElapsed = some 3
    ∧ (step c4state (.submit "ddos" "note" false)).decisionsCount = c4state.decisionsCount
    ∧ (step c4state (.submit "ddos" "note" false)).correctCount = c4state.correctCount :=
  C8_failed_submit_preserves_deciding c4state eventY 3 "ddos" "note" rfl rfl rfl

/- ── C9: the accuracy display ─────────────────────────────────────────── -/

/-- C9: COUNTEREXAMPLE.  With 3 decisions made and 1 correct the display
shows 33 (the code formats with `toFixed(0)`, which rounds), but
`decisionsCorrect/decisionsMade × 100 = 100/3` is not 33, so the displayed
accuracy does not equal the exact quotient. -/
theorem C9_accuracy_counterexample :
    accuracy 3 1 = some 33 ∧ ((33 : ℚ) ≠ 100 * 1 / 3) := by
  constructor
  · decide
  · norm_num

/-- C9 (amended): whenever decisionsMade > 0 the displayed accuracy equals
`decisionsCorrect/decisionsMade × 100` rounded to the nearest whole number
(halves rounding up), hence within 1/2 of the exact percentage; whenever
decisionsMade = 0 the accuracy is displayed as the dash placeholder. -/
theorem C9_accuracy_display (made correct : Nat) :
    (made = 0 → accuracy made correct = none)
    ∧ (0 < made → ∃ n, accuracy made correct = some n
        ∧ n = ⌊(100 * (correct : ℚ) / (made : ℚ)) + 1 / 2⌋₊
        ∧ |(n : ℚ) - 100 * (correct : ℚ) / (made : ℚ)| ≤ 1 / 2) := by
  constructor
  · intro h
    simp [accuracy, h]
  · intro h
    have hm : (made : ℚ) ≠ 0 := Nat.cast_ne_zero.mpr (Nat.pos_iff_ne_zero.mp h)
    refine ⟨(200 * correct + made) / (2 * made), by simp [accuracy, h], ?_, ?_⟩
    · have hx : (100 * (correct : ℚ) / (made : ℚ)) + 1 / 2
          = ((200 * correct + made : Nat) : ℚ) / ((2 * made : Nat) : ℚ) := by
        push_cast
        field_simp
        ring
      rw [hx, Nat.floor_div_nat, Nat.floor_natCast]
    · have hdm := Nat.div_add_mod (200 * correct + made) (2 * made)
      set q := (200 * correct + made) / (2 * made) with hq
      set r := (200 * correct + made) % (2 * made) with hr
      have hrlt : r < 2 * made := Nat.mod_lt _ (by omega)
      have hcast : (2 * made * q + r : ℚ) = 200 * correct + made := by
        exact_mod_cast congrArg (fun x : Nat => (x : ℚ)) hdm
      have hqval : (q : ℚ) - 100 * (correct : ℚ) / (made : ℚ)
          = ((made : ℚ) - r) / (2 * made) := by
        field_simp
        nlinarith [hcast]
      have hmpos : (0 : ℚ) < made := by exact_mod_cast h
      have hrq : (r : ℚ) < 2 * made := by exact_mod_cast hrlt
      have hr0 : (0 : ℚ) ≤ r := by positivity
      rw [hqval, abs_div, abs_of_pos (show (0 : ℚ) < 2 * made by linarith),
        div_le_iff₀ (show (0 : ℚ) < 2 * made by linarith)]
      have habs : |(made : ℚ) - r| ≤ made := abs_le.mpr ⟨by linarith, by linarith⟩
      linarith

/-- C9 witness: the amended accuracy theorem at 0 decisions (dash) and at
4 decisions with 1 correct (displays 25, the exact rounded percentage). -/
theorem C9_accuracy_display_witness :
    accuracy 0 7 = none
    ∧ ∃ n, accuracy 4 1 = some n
        ∧ n = ⌊(100 * ((1 : Nat) : ℚ) / ((4 : Nat) : ℚ)) + 1 / 2⌋₊
        ∧ |(n : ℚ) - 100 * ((1 : Nat) : ℚ) / ((4 : Nat) : ℚ)| ≤ 1 / 2 :=
  ⟨(C9_accuracy_display 0 7).1 rfl, (C9_accuracy_display 4 1).2 (by norm_num)⟩

/- ── C10: the default classification equals the correct label ─────────── -/

/-- C10: the classification dropdown opens initialized to the event's true
threat label when present (`brute_force` when absent), and that initial
value is exactly what `submitDecision` sends as `correct_label`; hence an
analyst who submits without changing the default submits a label equal to
the correct label and the decisions-correct counter increments. -/
theorem C10_default_label_is_correct_label (s : Cockpit) (log : Event) (t : Nat)
    (h1 : s.selectedLog = some log) (h2 : s.modalElapsed = some t) :
    initLabel log = jsOr log.threat_label "brute_force"
    ∧ (∀ l, log.threat_label = some l → l ≠ "" → initLabel log = l)
    ∧ (log.threat_label = none → initLabel log = "brute_force")
    ∧ (step s (.submit (initLabel log) "" true)).sent
        = s.sent ++ [{ analyst_label := initLabel log,
                       correct_label := initLabel log, time_taken_sec := t }]
    ∧ (step s (.submit (initLabel log) "" true)).correctCount = s.correctCount + 1 := by
  refine ⟨rfl, ?_, ?_, ?_, ?_⟩
  · intro l hl hne
    simp [initLabel, jsOr, hl, hne]
  · intro hl
    simp [initLabel, jsOr, hl]
  · simp [step, h1, h2, initLabel]
  · simp [step, h1, h2, serverCorrect, initLabel]

/-- C10 witness: in a concrete deciding state on `eventX` (true label
`ransomware`) the default is `ransomware`, it is what is sent as
`correct_label`, and submitting it unchanged increments decisions-correct. -/
theorem C10_default_label_is_correct_label_witness :
    initLabel eventX = jsOr eventX.threat_label "brute_force"
    ∧ initLabel eventX = "ransomware"
    ∧ (step c10state (.submit (initLabel eventX) "" true)).sent
        = c10state.sent ++ [{ analyst_label := initLabel eventX,
                              correct_label := initLabel eventX, time_taken_sec := 0 }]
    ∧ (step c10state (.submit (initLabel eventX) "" true)).correctCount
        = c10state.correctCount + 1 :=
  ⟨(C10_default_label_is_correct_label c10state eventX 0 rfl rfl).1,
   (C10_default_label_is_correct_label c10state eventX 0 rfl rfl).2.1 "ransomware" rfl
     (by decide),
   (C10_default_label_is_correct_label c10state eventX 0 rfl rfl).2.2.2.1,
   (C10_default_label_is_correct_label c10state eventX 0 rfl rfl).2.2.2.2⟩

/- ── Lemmas about the stable descending sort ──────────────────────────── -/

@[simp] lemma sortDesc_nil : sortDesc [] = [] := rfl

@[simp] lemma sortDesc_cons (x : String × Nat) (l : List (String × Nat)) :
    sortDesc (x :: l) = insertDesc x (sortDesc l) := rfl

lemma mem_insertDesc {a x : String × Nat} {m : List (String × Nat)} :
    a ∈ insertDesc x m ↔ a = x ∨ a ∈ m := by
  induction m with
  | nil => simp [insertDesc]
  | cons y ys ih =>
      simp only [insertDesc]
      split
      · simp only [List.mem_cons, ih]
        tauto
      · simp only [List.mem_cons]

lemma mem_sortDesc {a : String × Nat} {l : List (String × Nat)} :
    a ∈ sortDesc l ↔ a ∈ l := by
  induction l with
  | nil => simp
  | cons x xs ih =>
      rw [sortDesc_cons, mem_insertDesc, ih, List.mem_cons]

lemma pairwise_insertDesc {x : String × Nat} {m : List (String × Nat)}
    (h : List.Pairwise (fun a b => b.2 ≤ a.2) m) :
    List.Pairwise (fun a b => b.2 ≤ a.2) (insertDesc x m) := by
  induction m with
  | nil => simp [insertDesc]
  | cons y ys ih =>
      rcases List.pairwise_cons.mp h with ⟨hy, hys⟩
      simp only [insertDesc]
      split
      · rename_i hlt
        refine List.pairwise_cons.mpr ⟨?_, ih hys⟩
        intro z hz
        rcases mem_insertDesc.mp hz with rfl | hz
        · exact le_of_lt hlt
        · exact hy z hz
      · rename_i hnlt
        push_neg at hnlt
        refine List.pairwise_cons.mpr ⟨?_, h⟩
        intro z hz
        rcases List.mem_cons.mp hz with rfl | hz
        · exact hnlt
        · exact le_trans (hy z hz) hnlt

lemma pairwise_sortDesc (l : List (String × Nat)) :
    List.Pairwise (fun a b => b.2 ≤ a.2) (sortDesc l) := by
  induction l with
  | nil => simp
  | cons x xs ih =>
      rw [sortDesc_cons]
      exact pairwise_insertDesc ih

lemma filter_insertDesc (x : String × Nat) (m : List (String × Nat)) (n : Nat) :
    (insertDesc x m).filter (fun p => p.2 = n)
      = if x.2 = n then x :: m.filter (fun p => p.2 = n)
        else m.filter (fun p => p.2 = n) := by
  induction m with
  | nil =>
      by_cases hx : x.2 = n <;> simp [insertDesc, hx]
  | cons y ys ih =>
      simp only [insertDesc]
      split
      · rename_i hlt
        by_cases hx : x.2 = n
        · have hy : ¬ (y.2 = n) := by omega
          simp [List.filter_cons, hx, hy, ih]
        · simp [List.filter_cons, hx, ih]
      · by_cases hx : x.2 = n <;> simp [List.filter_cons, hx]

lemma filter_sortDesc (l : List (String × Nat)) (n : Nat) :
    (sortDesc l).filter (fun p => p.2 = n) = l.filter (fun p => p.2 = n) := by
  induction l with
  | nil => rfl
  | cons x xs ih =>
      rw [sortDesc_cons, filter_insertDesc, List.filter_cons]
      by_cases hx : x.2 = n <;> simp [hx, ih]

/- ── Lemmas about the grouping fold ───────────────────────────────────── -/

lemma bump_keys (acc : List (String × Nat)) (k : String) :
    (bump acc k).map Prod.fst
      = if k ∈ acc.map Prod.fst then acc.map Prod.fst
        else acc.map Prod.fst ++ [k] := by
  induction acc with
  | nil => simp [bump]
  | cons p ps ih =>
      obtain ⟨k', n⟩ := p
      by_cases h : k' = k
      · subst h
        simp [bump]
      · have h' : ¬ (k = k') := fun e => h e.symm
        simp only [bump, if_neg h, List.map_cons, List.mem_cons]
        rw [ih]
        by_cases hk : k ∈ ps.map Prod.fst
        · simp [hk, h']
        · simp [hk, h']

lemma valAt_bump_self (acc : List (String × Nat)) (k : String) :
    valAt (bump acc k) k = valAt acc k + 1 := by
  induction acc with
  | nil => simp [bump, valAt]
  | cons p ps ih =>
      obtain ⟨k', n⟩ := p
      by_cases h : k' = k
      · subst h
        simp [bump, valAt, List.filter_cons]
        omega
      · simp only [bump, if_neg h]
        simp only [valAt, List.filter_cons] at ih ⊢
        simp [h, ih]

lemma valAt_bump_other (acc : List (String × Nat)) (k k' : String) (h : k' ≠ k) :
    valAt (bump acc k) k' = valAt acc k' := by
  have h' : ¬ (k = k') := fun e => h e.symm
  induction acc with
  | nil => simp [bump, valAt, h']
  | cons p ps ih =>
      obtain ⟨k'', n⟩ := p
      by_cases hk : k'' = k
      · subst hk
        simp [bump, valAt, List.filter_cons, h']
      · simp only [bump, if_neg hk]
        simp only [valAt, List.filter_cons] at ih ⊢
        by_cases hk' : k'' = k' <;> simp [hk', ih]

lemma valAt_foldl_bump (ls : List String) (acc : List (String × Nat)) (k : String) :
    valAt (ls.foldl bump acc) k = valAt acc k + ls.count k := by
  induction ls generalizing acc with
  | nil => simp
  | cons a ls ih =>
      rw [List.foldl_cons, ih, List.count_cons]
      by_cases h : a = k
      · subst h
        rw [valAt_bump_self]
        simp only [beq_self_eq_true, if_true]
        omega
      · rw [valAt_bump_other acc a k (fun e => h e.symm)]
        have hb : (a == k) = false := beq_eq_false_iff_ne.mpr h
        simp [hb]

lemma mem_keys_bump (acc : List (String × Nat)) (k k' : String) :
    k' ∈ (bump acc k).map Prod.fst ↔ k' ∈ acc.map Prod.fst ∨ k' = k := by
  rw [bump_keys]
  by_cases h : k ∈ acc.map Prod.fst
  · rw [if_pos h]
    constructor
    · exact Or.inl
    · rintro (hk | rfl)
      · exact hk
      · exact h
  · rw [if_neg h]
    simp [List.mem_append]

lemma mem_keys_foldl_bump (ls : List String) (acc : List (String × Nat)) (k : String) :
    k ∈ (ls.foldl bump acc).map Prod.fst ↔ k ∈ acc.map Prod.fst ∨ k ∈ ls := by
  induction ls generalizing acc with
  | nil => simp
  | cons a ls ih =>
      rw [List.foldl_cons, ih, mem_keys_bump, List.mem_cons]
      tauto

lemma valAt_eq_zero {acc : List (String × Nat)} {k : String}
    (h : k ∉ acc.map Prod.fst) : valAt acc k = 0 := by
  induction acc with
  | nil => rfl
  | cons p ps ih =>
      obtain ⟨k', n⟩ := p
      simp only [List.map_cons, List.mem_cons] at h
      push_neg at h
      simp only [valAt, List.filter_cons]
      have : ¬ (k' = k) := fun e => h.1 e.symm
      simp only [this, decide_False, Bool.false_eq_true, if_false]
      exact ih h.2

lemma nodup_keys_bump (acc : List (String × Nat)) (k : String)
    (h : (acc.map Prod.fst).Nodup) : ((bump acc k).map Prod.fst).Nodup := by
  rw [bump_keys]
  by_cases hk : k ∈ acc.map Prod.fst
  · rw [if_pos hk]
    exact h
  · rw [if_neg hk]
    rw [List.nodup_append]
    refine ⟨h, List.nodup_singleton k, ?_⟩
    intro a ha hb
    rw [List.mem_singleton] at hb
    exact hk (hb ▸ ha)

lemma nodup_keys_foldl_bump (ls : List String) (acc : List (String × Nat))
    (h : (acc.map Prod.fst).Nodup) : ((ls.foldl bump acc).map Prod.fst).Nodup := by
  induction ls generalizing acc with
  | nil => exact h
  | cons a ls ih =>
      rw [List.foldl_cons]
      exact ih _ (nodup_keys_bump acc a h)

lemma keys_foldl_bump (ls : List String) (acc : List (String × Nat)) :
    (ls.foldl bump acc).map Prod.fst
      = acc.map Prod.fst ++ (firstSeen ls).filter (fun k => k ∉ acc.map Prod.fst) := by
  induction ls generalizing acc with
  | nil => simp [firstSeen]
  | cons a ls ih =>
      rw [List.foldl_cons, ih, bump_keys, firstSeen]
      by_cases h : a ∈ acc.map Prod.fst
      · rw [if_pos h]
        congr 1
        rw [List.filter_cons]
        simp only [h, not_true, decide_False, Bool.false_eq_true, if_false]
        rw [List.filter_filter]
        apply List.filter_congr
        intro x hx
        by_cases hxk : x ∈ acc.map Prod.fst
        · simp [hxk]
        · have : x ≠ a := fun e => hxk (e ▸ h)
          simp [hxk, this]
      · rw [if_neg h]
        rw [List.filter_cons]
        simp only [h, not_false_iff, decide_True, if_true]
        rw [List.append_assoc, List.singleton_append]
        congr 1
        congr 1
        rw [List.filter_filter]
        apply List.filter_congr
        intro x hx
        by_cases h1 : x = a
        · subst h1
          simp [h]
        · by_cases h2 : x ∈ acc.map Prod.fst <;> simp [h1, h2]

lemma labelsOf_cons_none (e : Event) (es : List Event) (he : e.threat_label = none) :
    labelsOf (e :: es) = labelsOf es := by
  simp only [labelsOf, List.filterMap_cons, he]

lemma labelsOf_cons_pos (e : Event) (es : List Event) (t : String)
    (he : e.threat_label = some t) (ht : t ≠ "" ∧ t ≠ "benign") :
    labelsOf (e :: es) = t :: labelsOf es := by
  simp only [labelsOf, List.filterMap_cons, he, if_pos ht]

lemma labelsOf_cons_neg (e : Event) (es : List Event) (t : String)
    (he : e.threat_label = some t) (ht : ¬ (t ≠ "" ∧ t ≠ "benign")) :
    labelsOf (e :: es) = labelsOf es := by
  simp only [labelsOf, List.filterMap_cons, he, if_neg ht]

lemma threatCounts_foldl_aux (logs : List Event) (acc : List (String × Nat)) :
    logs.foldl (fun acc l =>
      match l.threat_label with
      | some t => if t ≠ "" ∧ t ≠ "benign" then bump acc t else acc
      | none => acc) acc
    = (labelsOf logs).foldl bump acc := by
  induction logs generalizing acc with
  | nil => rfl
  | cons e es ih =>
      rw [List.foldl_cons]
      cases he : e.threat_label with
      | none =>
          rw [labelsOf_cons_none e es he]
          simp only [he]
          exact ih acc
      | some t =>
          by_cases ht : t ≠ "" ∧ t ≠ "benign"
          · rw [labelsOf_cons_pos e es t he ht, List.foldl_cons]
            simp only [he, if_pos ht]
            exact ih (bump acc t)
          · rw [labelsOf_cons_neg e es t he ht]
            simp only [he, if_neg ht]
            exact ih acc

lemma threatCounts_eq_foldl (logs : List Event) :
    threatCounts logs = (labelsOf logs).foldl bump [] :=
  threatCounts_foldl_aux logs []

lemma mem_labelsOf {logs : List Event} {k : String} :
    k ∈ labelsOf logs
      ↔ k ≠ "" ∧ k ≠ "benign" ∧ ∃ e ∈ logs, e.threat_label = some k := by
  induction logs with
  | nil => simp [labelsOf]
  | cons e es ih =>
      cases he : e.threat_label with
      | none =>
          rw [labelsOf_cons_none e es he, ih]
          constructor
          · rintro ⟨h1, h2, e', he', hl⟩
            exact ⟨h1, h2, e', List.mem_cons_of_mem _ he', hl⟩
          · rintro ⟨h1, h2, e', he', hl⟩
            rcases List.mem_cons.mp he' with rfl | he''
            · rw [he] at hl
              cases hl
            · exact ⟨h1, h2, e', he'', hl⟩
      | some t =>
          by_cases ht : t ≠ "" ∧ t ≠ "benign"
          · rw [labelsOf_cons_pos e es t he ht, List.mem_cons, ih]
            constructor
            · rintro (rfl | ⟨h1, h2, e', he', hl⟩)
              · exact ⟨ht.1, ht.2, e, List.mem_cons_self e es, he⟩
              · exact ⟨h1, h2, e', List.mem_cons_of_mem _ he', hl⟩
            · rintro ⟨h1, h2, e', he', hl⟩
              rcases List.mem_cons.mp he' with rfl | he''
              · rw [he] at hl
                exact Or.inl (Option.some.inj hl).symm
              · exact Or.inr ⟨h1, h2, e', he'', hl⟩
          · rw [labelsOf_cons_neg e es t he ht, ih]
            constructor
            · rintro ⟨h1, h2, e', he', hl⟩
              exact ⟨h1, h2, e', List.mem_cons_of_mem _ he', hl⟩
            · rintro ⟨h1, h2, e', he', hl⟩
              rcases List.mem_cons.mp he' with rfl | he''
              · rw [he] at hl
                obtain rfl := Option.some.inj hl
                push_neg at ht
                exact absurd (ht h1) h2
              · exact ⟨h1, h2, e', he'', hl⟩

lemma count_labelsOf (logs : List Event) (k : String) (h1 : k ≠ "") (h2 : k ≠ "benign") :
    (labelsOf logs).count k = (logs.filter (fun e => e.threat_label = some k)).length := by
  induction logs with
  | nil => rfl
  | cons e es ih =>
      rw [List.filter_cons]
      cases he : e.threat_label with
      | none =>
          have hne : ¬ (e.threat_label = some k) := by
            rw [he]
            exact fun hc => Option.noConfusion hc
          rw [labelsOf_cons_none e es he, ih]
          simp [hne]
      | some t =>
          by_cases ht : t ≠ "" ∧ t ≠ "benign"
          · by_cases hk : t = k
            · subst hk
              have hyes : e.threat_label = some t := he
              rw [labelsOf_cons_pos e es t he ht, List.count_cons, ih]
              simp [hyes]
            · have hne : ¬ (e.threat_label = some k) := by
                rw [he]
                intro hc
                exact hk (Option.some.inj hc)
              have hb : (k == t) = false :=
                beq_eq_false_iff_ne.mpr (fun e' => hk e'.symm)
              rw [labelsOf_cons_pos e es t he ht, List.count_cons, ih]
              simp [hne, hb, hk]
          · have hk : ¬ (t = k) := by
              intro hc
              subst hc
              exact ht ⟨h1, h2⟩
            have hne : ¬ (e.threat_label = some k) := by
              rw [he]
              intro hc
              exact hk (Option.some.inj hc)
            rw [labelsOf_cons_neg e es t he ht, ih]
            simp [hne, hk]

lemma entry_val_eq_valAt {acc : List (String × Nat)}
    (h : (acc.map Prod.fst).Nodup) {k : String} {n : Nat} (hm : (k, n) ∈ acc) :
    n = valAt acc k := by
  induction acc with
  | nil => cases hm
  | cons p ps ih =>
      obtain ⟨k', n'⟩ := p
      simp only [List.map_cons, List.nodup_cons] at h
      rcases List.mem_cons.mp hm with heq | hm'
      · cases heq
        have hz : valAt ps k = 0 := valAt_eq_zero h.1
        rw [valAt] at hz
        simp only [valAt, List.filter_cons]
        simp [hz]
      · have hk : ¬ (k' = k) := by
          intro e
          subst e
          exact h.1 (List.mem_map.mpr ⟨(k', n), hm', rfl⟩)
        simp only [valAt, List.filter_cons, hk, decide_False, Bool.false_eq_true, if_false]
        exact ih h.2 hm'

/- ── C5: the threat distribution ──────────────────────────────────────── -/

/-- C5: for every Event Store snapshot, `threatDist` has at most 6 entries,
is sorted in descending order of count, and every entry comes from a label
`k` that is present (truthy) on some event and is not the `benign`
sentinel, displayed with underscores replaced by spaces and counted over
the whole snapshot (group-count by label, each label at most once — the
keys of the grouping are distinct and listed in first-seen order); the
stable sort keeps entries of equal count in grouping order, so ties are
broken by first-seen label order. -/
theorem C5_threatDistribution (logs : List Event) :
    (threatDist logs).length ≤ 6
    ∧ List.Pairwise (fun a b => b.2 ≤ a.2) (threatDist logs)
    ∧ (∀ p ∈ threatDist logs, ∃ k, k ≠ "" ∧ k ≠ "benign"
        ∧ p.1 = renameLabel k
        ∧ (∃ e ∈ logs, e.threat_label = some k)
        ∧ p.2 = (logs.filter (fun e => e.threat_label = some k)).length
        ∧ 0 < p.2)
    ∧ (threatCounts logs).map Prod.fst = firstSeen (labelsOf logs)
    ∧ ((threatCounts logs).map Prod.fst).Nodup
    ∧ (∀ n, (sortDesc ((threatCounts logs).map renameEntry)).filter (fun p => p.2 = n)
        = ((threatCounts logs).map renameEntry).filter (fun p => p.2 = n)) := by
  refine ⟨?_, ?_, ?_, ?_, ?_, ?_⟩
  · exact List.length_take_le 6 _
  · exact List.Pairwise.sublist (List.take_sublist 6 _) (pairwise_sortDesc _)
  · intro p hp
    have hp1 : p ∈ sortDesc ((threatCounts logs).map renameEntry) :=
      List.mem_of_mem_take hp
    have hp2 : p ∈ (threatCounts logs).map renameEntry := mem_sortDesc.mp hp1
    obtain ⟨q, hq, rfl⟩ := List.mem_map.mp hp2
    obtain ⟨k, n⟩ := q
    rw [threatCounts_eq_foldl] at hq
    have hknodup : (((labelsOf logs).foldl bump []).map Prod.fst).Nodup :=
      nodup_keys_foldl_bump (labelsOf logs) [] (by simp)
    have hkmem : k ∈ ((labelsOf logs).foldl bump []).map Prod.fst :=
      List.mem_map.mpr ⟨(k, n), hq, rfl⟩
    have hkls : k ∈ labelsOf logs := by
      rcases (mem_keys_foldl_bump (labelsOf logs) [] k).mp hkmem with h | h
      · simp at h
      · exact h
    obtain ⟨h1, h2, e, he, hl⟩ := mem_labelsOf.mp hkls
    have hval : n = valAt ((labelsOf logs).foldl bump []) k :=
      entry_val_eq_valAt hknodup hq
    rw [valAt_foldl_bump] at hval
    have hcount : n = (labelsOf logs).count k := by
      rw [hval]
      simp [valAt]
    refine ⟨k, h1, h2, rfl, ⟨e, he, hl⟩, ?_, ?_⟩
    · show n = _
      rw [hcount, count_labelsOf logs k h1 h2]
    · show 0 < n
      rw [hcount]
      exact List.count_pos_iff.mpr hkls
  · rw [threatCounts_eq_foldl, keys_foldl_bump]
    simp
  · rw [threatCounts_eq_foldl]
    exact nodup_keys_foldl_bump (labelsOf logs) [] (by simp)
  · intro n
    exact filter_sortDesc _ n

/-- C5 witness: the threat-distribution theorem evaluated on the concrete
store `distLogs` (one phishing event, two ddos events, one benign event):
the top entry is `("ddos", 2)`. -/
theorem C5_threatDistribution_witness :
    (threatDist distLogs).length ≤ 6
    ∧ ("ddos", 2) ∈ threatDist distLogs
    ∧ (∃ k, k ≠ "" ∧ k ≠ "benign"
        ∧ (("ddos", 2) : String × Nat).1 = renameLabel k
        ∧ (∃ e ∈ distLogs, e.threat_label = some k)
        ∧ (("ddos", 2) : String × Nat).2
            = (distLogs.filter (fun e => e.threat_label = some k)).length
        ∧ 0 < (("ddos", 2) : String × Nat).2)
    ∧ (sortDesc ((threatCounts distLogs).map renameEntry)).filter (fun p => p.2 = 1)
        = ((threatCounts distLogs).map renameEntry).filter (fun p => p.2 = 1) :=
  ⟨(C5_threatDistribution distLogs).1, by decide,
   (C5_threatDistribution distLogs).2.2.1 ("ddos", 2) (by decide),
   (C5_threatDistribution distLogs).2.2.2.2.2 1⟩
